import Mathlib

/-!
Verification of the home_manager temporal lifecycle engine.

Shallow embedding of the due-date computation, recurrence rollover,
overdue/due-soon classification, status state transitions and reporting
aggregation found in src/models/maintenance.py, src/models/task.py and
src/app.py.
-/

namespace HomeManager

/-- Calendar date, mirroring Python `datetime.date` (proleptic Gregorian).
The year is an `Int` so that month arithmetic with negative offsets stays
total. -/
structure Date where
  year : Int
  month : Nat
  day : Nat
deriving DecidableEq, Repr

/-- Gregorian leap-year rule, as used by Python's `calendar`/`datetime`. -/
def isLeap (y : Int) : Bool :=
  (y % 4 == 0 && y % 100 != 0) || y % 400 == 0

/-- Number of days in a month of a given year. -/
def daysInMonth (y : Int) (m : Nat) : Nat :=
  if m = 2 then (if isLeap y then 29 else 28)
  else if m = 4 ∨ m = 6 ∨ m = 9 ∨ m = 11 then 30
  else 31

/-- A structurally valid calendar date. -/
def ValidDate (d : Date) : Prop :=
  1 ≤ d.month ∧ d.month ≤ 12 ∧ 1 ≤ d.day ∧ d.day ≤ daysInMonth d.year d.month

instance (d : Date) : Decidable (ValidDate d) := by
  unfold ValidDate; infer_instance

/-- Python `date` comparison `a < b`: lexicographic on (year, month, day). -/
def dateLtB (a b : Date) : Bool :=
  if a.year = b.year then
    (if a.month = b.month then decide (a.day < b.day) else decide (a.month < b.month))
  else decide (a.year < b.year)

/-- Cumulative days before month `m` in a non-leap year. -/
def cumDays : Nat → Nat
  | 1 => 0 | 2 => 31 | 3 => 59 | 4 => 90 | 5 => 120 | 6 => 151
  | 7 => 181 | 8 => 212 | 9 => 243 | 10 => 273 | 11 => 304 | 12 => 334
  | _ => 0

/-- Leap-day adjustment for months after February. -/
def leapAdj (y : Int) (m : Nat) : Nat :=
  if 2 < m ∧ isLeap y = true then 1 else 0

/-- Ordinal day within the year (1 = Jan 1). -/
def dayOfYear (d : Date) : Nat :=
  cumDays d.month + leapAdj d.year d.month + d.day

/-- Rata-die offset of January 0 of year `y` (days in all prior years). -/
def yearStart (y : Int) : Int :=
  365 * (y - 1) + (y - 1) / 4 - (y - 1) / 100 + (y - 1) / 400

/-- Rata-die ordinal of a date; differences of this function are exactly
Python's `(b - a).days`. -/
def toRD (d : Date) : Int := yearStart d.year + (dayOfYear d : Int)

/-- Python `(b - a).days`. -/
def daysBetween (a b : Date) : Int := toRD b - toRD a

/-- `dateutil.relativedelta(months=k)` applied to a date: advance the
linear month index by `k`, then clamp the day to the target month's
length. -/
def addMonths (d : Date) (k : Int) : Date :=
  let t : Int := 12 * d.year + (d.month : Int) - 1 + k
  let y : Int := t / 12
  let m : Nat := (t % 12).toNat + 1
  { year := y, month := m, day := min d.day (daysInMonth y m) }

/-- Linear month index: `12 * year + (month - 1)`. -/
def monthIndex (d : Date) : Int := 12 * d.year + (d.month : Int) - 1

theorem monthIndex_addMonths (d : Date) (k : Int) :
    monthIndex (addMonths d k) = monthIndex d + k := by
  unfold monthIndex addMonths
  simp only
  have hnn := Int.emod_nonneg (12 * d.year + (d.month : Int) - 1 + k) (by norm_num : (12:Int) ≠ 0)
  push_cast [Int.toNat_of_nonneg hnn]
  omega

lemma addMonths_month_bounds (d : Date) (k : Int) :
    1 ≤ (addMonths d k).month ∧ (addMonths d k).month ≤ 12 := by
  unfold addMonths
  simp only
  have hnn := Int.emod_nonneg (12 * d.year + (d.month : Int) - 1 + k) (by norm_num : (12:Int) ≠ 0)
  have hlt := Int.emod_lt_of_pos (12 * d.year + (d.month : Int) - 1 + k) (by norm_num : (0:Int) < 12)
  omega

lemma addMonths_day_eq (d : Date) (k : Int) :
    (addMonths d k).day =
      if d.day ≤ daysInMonth (addMonths d k).year (addMonths d k).month then d.day
      else daysInMonth (addMonths d k).year (addMonths d k).month := by
  unfold addMonths
  simp only
  split <;> omega

lemma yearStart_step (y : Int) :
    yearStart (y + 1) = yearStart y + 365 + (if isLeap y = true then 1 else 0) := by
  by_cases h4 : y % 4 = 0 <;> by_cases h100 : y % 100 = 0 <;> by_cases h400 : y % 400 = 0 <;>
    simp only [yearStart, isLeap, Bool.or_eq_true, Bool.and_eq_true, beq_iff_eq, bne_iff_ne,
      ne_eq, h4, h100, h400] <;>
    simp only [if_pos, if_neg, not_true, not_false_iff, true_and, and_true, false_and,
      and_false, or_true, true_or, false_or, or_false, if_true, if_false,
      not_false_eq_true, not_true_eq_false] <;>
    omega

lemma yearStart_mono {z z' : Int} (h : z ≤ z') : yearStart z ≤ yearStart z' := by
  refine @Int.le_induction (fun w => yearStart z ≤ yearStart w) z (le_refl _) ?_ z' h
  intro n _ ih
  have := yearStart_step n
  split at this <;> omega

lemma dayOfYear_pos (d : Date) (h : ValidDate d) : 1 ≤ dayOfYear d := by
  unfold dayOfYear
  obtain ⟨-, -, h3, -⟩ := h
  omega

lemma dayOfYear_le (d : Date) (h : ValidDate d) :
    (dayOfYear d : Int) ≤ 365 + (if isLeap d.year = true then 1 else 0) := by
  obtain ⟨y, m, day⟩ := d
  obtain ⟨h1, h2, -, h4⟩ := h
  simp only at h1 h2 h4 ⊢
  cases hl : isLeap y <;>
    (interval_cases m <;>
      simp [dayOfYear, cumDays, leapAdj, daysInMonth, hl] at h4 ⊢ <;>
      omega)

lemma dayOfYear_month_lt {y : Int} {m m' day day' : Nat}
    (hm1 : 1 ≤ m) (hm2 : m ≤ 12) (hm2' : m' ≤ 12) (hlt : m < m')
    (hday : day ≤ daysInMonth y m) (hday' : 1 ≤ day') :
    cumDays m + leapAdj y m + day < cumDays m' + leapAdj y m' + day' := by
  cases hl : isLeap y <;>
    (interval_cases m <;> interval_cases m' <;>
      simp [cumDays, leapAdj, daysInMonth, hl] at hday ⊢ <;>
      omega)

/-- Lexicographic date order agrees strictly with the rata-die ordinal on
valid dates: this is the bridge between Python's `date` comparison and
`timedelta.days` arithmetic. -/
theorem toRD_lt_of_dateLt (a b : Date) (ha : ValidDate a) (hb : ValidDate b)
    (h : dateLtB a b = true) : toRD a < toRD b := by
  unfold dateLtB at h
  by_cases hy : a.year = b.year
  · rw [if_pos hy] at h
    unfold toRD
    rw [hy]
    have hdo : dayOfYear a < dayOfYear b := by
      by_cases hm : a.month = b.month
      · rw [if_pos hm] at h
        have hd : a.day < b.day := of_decide_eq_true h
        unfold dayOfYear
        rw [hm, hy]
        omega
      · rw [if_neg hm] at h
        have hmlt : a.month < b.month := of_decide_eq_true h
        unfold dayOfYear
        rw [hy]
        exact dayOfYear_month_lt ha.1 ha.2.1 hb.2.1 hmlt (by rw [← hy]; exact ha.2.2.2) hb.2.2.1
    omega
  · rw [if_neg hy] at h
    have hylt : a.year < b.year := of_decide_eq_true h
    have h1 : toRD a ≤ yearStart a.year + 365 + (if isLeap a.year = true then 1 else 0) := by
      have := dayOfYear_le a ha
      unfold toRD
      omega
    have h2 : yearStart a.year + 365 + (if isLeap a.year = true then 1 else 0)
        = yearStart (a.year + 1) := (yearStart_step a.year).symm
    have h3 : yearStart (a.year + 1) ≤ yearStart b.year := yearStart_mono (by omega)
    have h4 : yearStart b.year < toRD b := by
      have := dayOfYear_pos b hb
      unfold toRD
      omega
    omega

/-- If the ordinal strictly increases, the later date is not lexicographically
before the earlier one. -/
theorem dateLtB_eq_false_of_toRD_lt (a b : Date) (ha : ValidDate a) (hb : ValidDate b)
    (h : toRD a < toRD b) : dateLtB b a = false := by
  by_contra hc
  have : dateLtB b a = true := by
    cases hcc : dateLtB b a
    · exact absurd hcc hc
    · rfl
  have := toRD_lt_of_dateLt b a hb ha this
  omega

lemma dateLtB_irrefl (a : Date) : dateLtB a a = false := by
  unfold dateLtB
  simp

lemma dateLtB_of_monthIndex_lt (a b : Date)
    (ha : 1 ≤ a.month ∧ a.month ≤ 12) (hb : 1 ≤ b.month ∧ b.month ≤ 12)
    (h : monthIndex a < monthIndex b) : dateLtB a b = true := by
  unfold monthIndex at h
  by_cases hy : a.year = b.year
  · have hm : a.month < b.month := by omega
    unfold dateLtB
    rw [if_pos hy, if_neg (by omega), decide_eq_true_eq]
    exact hm
  · have hylt : a.year < b.year := by omega
    unfold dateLtB
    rw [if_neg hy, decide_eq_true_eq]
    exact hylt

/-! ## Maintenance items (src/models/maintenance.py) -/

/-- The engine-relevant fields of `MaintenanceItem`. Free-text descriptive
fields (name, description, location, notes, provider data, tags, user
tracking) and the `updated_at` bookkeeping timestamp are omitted: no
lifecycle rule reads them. `status` is a free-form string in the source.
Costs are `Numeric` columns, embedded as rationals. -/
structure MaintenanceItem where
  category : String
  priority : String
  status : String
  is_recurring : Bool
  is_active : Bool
  frequency_months : Option Int
  next_due_date : Option Date
  last_completed_date : Option Date
  estimated_cost : Option Rat
  actual_cost : Option Rat
deriving DecidableEq, Repr

/-- `MaintenanceItem.is_overdue` (maintenance.py lines 56-60):
`False` when `next_due_date` is `None`, else `date.today() > next_due_date`. -/
def MaintenanceItem.is_overdue (it : MaintenanceItem) (today : Date) : Bool :=
  match it.next_due_date with
  | none => false
  | some d => dateLtB d today

/-- `MaintenanceItem.days_until_due` (maintenance.py lines 62-67):
`999999` when `next_due_date` is `None`, else `(next_due_date - today).days`. -/
def MaintenanceItem.days_until_due (it : MaintenanceItem) (today : Date) : Int :=
  match it.next_due_date with
  | none => 999999
  | some d => daysBetween today d

/-- `MaintenanceItem.calculate_next_due_date` (maintenance.py lines 69-77):
returns (leaving the item unchanged) when the item is not recurring or has
no `frequency_months`; otherwise sets
`next_due_date = (last_completed_date or today) + relativedelta(months=frequency_months)`. -/
def MaintenanceItem.calculate_next_due_date (it : MaintenanceItem) (today : Date) :
    MaintenanceItem :=
  match it.is_recurring, it.frequency_months with
  | true, some k =>
      { it with next_due_date := some (addMonths (it.last_completed_date.getD today) k) }
  | _, _ => it

/-- `MaintenanceItem.mark_completed` (maintenance.py lines 79-92):
sets `status = "completed"` and `last_completed_date = completion_date or today`;
sets `actual_cost` when supplied; if recurring, recomputes the due date and
resets `status` to `"pending"`. -/
def MaintenanceItem.mark_completed (it : MaintenanceItem)
    (completion_date : Option Date) (cost : Option Rat) (today : Date) :
    MaintenanceItem :=
  let it1 : MaintenanceItem :=
    { it with status := "completed",
              last_completed_date := some (completion_date.getD today) }
  let it2 : MaintenanceItem :=
    match cost with
    | some c => { it1 with actual_cost := some c }
    | none => it1
  if it2.is_recurring then
    { it2.calculate_next_due_date today with status := "pending" }
  else
    it2

/-- Classification tags of spec section 4.2. -/
inductive MaintClass where
  | overdue
  | due_soon
  | upcoming
  | no_schedule
deriving DecidableEq, Repr

/-- The dashboard's bucket logic (app.py lines 420-422) composed into the
four-way classification of spec section 4.2: the overdue bucket is
`item.is_overdue()`, the due-soon bucket is
`0 <= item.days_until_due() <= 7 and not item.is_overdue()`, an item with
no due date falls in neither and has no schedule, and the rest are
upcoming. -/
def classify (it : MaintenanceItem) (today : Date) : MaintClass :=
  match it.next_due_date with
  | none => .no_schedule
  | some _ =>
    if it.is_overdue today then .overdue
    else if 0 ≤ it.days_until_due today ∧ it.days_until_due today ≤ 7 then .due_soon
    else .upcoming

/-- Dashboard overdue count (app.py line 421). -/
def overdueCount (items : List MaintenanceItem) (today : Date) : Nat :=
  (items.filter (fun it => it.is_overdue today)).length

/-- Dashboard due-soon count (app.py line 422). -/
def dueSoonCount (items : List MaintenanceItem) (today : Date) : Nat :=
  (items.filter (fun it =>
    decide (0 ≤ it.days_until_due today ∧ it.days_until_due today ≤ 7)
      && !(it.is_overdue today))).length

/-- The dashboard's completed-this-month membership test (app.py line 423):
`item.last_completed_date and item.last_completed_date.month == date.today().month`. -/
def completedThisMonthB (it : MaintenanceItem) (today : Date) : Bool :=
  match it.last_completed_date with
  | some d => d.month == today.month
  | none => false

/-- Dashboard completed-this-month count (app.py line 423). -/
def completedThisMonth (items : List MaintenanceItem) (today : Date) : Nat :=
  (items.filter (fun it => completedThisMonthB it today)).length

/-- One step of the dashboard's counting loop:
`counts[key] = counts.get(key, 0) + 1`, with Python-dict insertion order
kept as an association list. -/
def bump (m : List (String × Nat)) (k : String) : List (String × Nat) :=
  match m with
  | [] => [(k, 1)]
  | (k', n) :: rest => if k' = k then (k', n + 1) :: rest else (k', n) :: bump rest k

/-- The dashboard's `count_by`-style aggregation (app.py lines 426-438):
when the item list is non-empty, fold the counting loop over the extracted
field; when it is empty, the placeholder `{"No Data": 1}`. -/
def countBy (f : MaintenanceItem → String) (items : List MaintenanceItem) :
    List (String × Nat) :=
  if items.isEmpty then [("No Data", 1)]
  else items.foldl (fun m it => bump m (f it)) []

/-! ## Tasks (src/models/task.py) -/

/-- `TaskStatus` enumeration (task.py lines 12-17). -/
inductive TaskStatus where
  | pending
  | in_progress
  | completed
  | cancelled
deriving DecidableEq, Repr

/-- `TaskPriority` enumeration (task.py lines 19-24). -/
inductive TaskPriority where
  | low
  | medium
  | high
  | urgent
deriving DecidableEq, Repr

/-- The string SQLAlchemy persists for an `Enum(TaskPriority)` column (the
Python enum member's name), which is what `ORDER BY priority` compares on
SQLite. -/
def TaskPriority.storedName : TaskPriority → String
  | .low => "LOW"
  | .medium => "MEDIUM"
  | .high => "HIGH"
  | .urgent => "URGENT"

/-- The engine-relevant fields of `Task`. Free-text fields (title,
description, notes, assignment, approval, location) and the recurrence
columns are omitted: no claim reads them. `completed_date` is a `DateTime`
column; only its calendar-date part matters to the engine, so it is
embedded as a `Date`. -/
structure Task where
  priority : TaskPriority
  status : TaskStatus
  due_date : Option Date
  start_date : Option Date
  completed_date : Option Date
  is_active : Bool
deriving DecidableEq, Repr

/-- `Task.is_overdue` (task.py lines 73-78): `due_date` present, status not
in `[COMPLETED, CANCELLED]`, and `today > due_date`. -/
def Task.is_overdue (t : Task) (today : Date) : Bool :=
  match t.due_date with
  | none => false
  | some d =>
      decide (t.status ≠ TaskStatus.completed ∧ t.status ≠ TaskStatus.cancelled)
        && dateLtB d today

/-- `Task.days_until_due` (task.py lines 80-86): `(due_date - today).days`
when a due date exists, else the sentinel `999`. -/
def Task.days_until_due (t : Task) (today : Date) : Int :=
  match t.due_date with
  | none => 999
  | some d => daysBetween today d

/-- `Task.mark_completed` (task.py lines 124-129): sets status `COMPLETED`
and `completed_date = datetime.now()`. The `completed_by` argument only
appends an attribution line to the omitted free-text `notes` field. -/
def Task.mark_completed (t : Task) (now : Date) : Task :=
  { t with status := .completed, completed_date := some now }

/-- `Task.mark_in_progress` (task.py lines 131-135): sets status
`IN_PROGRESS`; sets `start_date = date.today()` only when it is unset.
`completed_date` is not touched. -/
def Task.mark_in_progress (t : Task) (today : Date) : Task :=
  { t with status := .in_progress,
           start_date := if t.start_date = none then some today else t.start_date }

/-- The engine's own lifecycle commands on a task (spec section 4.3). -/
inductive TaskCmd where
  | complete (now : Date)
  | startProgress (today : Date)
deriving DecidableEq, Repr

/-- Apply one engine command. -/
def applyCmd (t : Task) : TaskCmd → Task
  | .complete now => t.mark_completed now
  | .startProgress today => t.mark_in_progress today

/-- Apply a sequence of engine commands left to right. -/
def runCmds (t : Task) (cs : List TaskCmd) : Task :=
  cs.foldl applyCmd t

/-! ## Task list ordering (src/app.py lines 1094-1098) -/

/-- SQLite BINARY collation: code-point lexicographic comparison of the
stored text. -/
def charListLt : List Char → List Char → Bool
  | [], [] => false
  | [], _ :: _ => true
  | _ :: _, [] => false
  | a :: as, b :: bs =>
      if a.toNat < b.toNat then true
      else if b.toNat < a.toNat then false
      else charListLt as bs

/-- BINARY-collation comparison of two strings. -/
def strLtB (s t : String) : Bool := charListLt s.data t.data

/-- The secondary sort key `Task.due_date.asc().nullslast()`: ascending on
present dates, every present date before an absent one. -/
def dueKeyLtB : Option Date → Option Date → Bool
  | some a, some b => dateLtB a b
  | some _, none => true
  | none, _ => false

/-- `t` strictly precedes `u` in the task list's
`ORDER BY priority DESC, due_date ASC NULLS LAST` (app.py lines 1094-1098):
the primary key compares the persisted priority strings (SQLite BINARY
collation, i.e. lexicographic), descending. -/
def taskSortBefore (t u : Task) : Bool :=
  if t.priority.storedName = u.priority.storedName then
    dueKeyLtB t.due_date u.due_date
  else
    strLtB u.priority.storedName t.priority.storedName

/-- The semantic priority rank the spec asserts for the sort
(urgent > high > medium > low). -/
def semRank : TaskPriority → Nat
  | .low => 0
  | .medium => 1
  | .high => 2
  | .urgent => 3

/-- The rank actually induced by lexicographic comparison of the persisted
member names: HIGH < LOW < MEDIUM < URGENT. -/
def nameRank : TaskPriority → Nat
  | .high => 0
  | .low => 1
  | .medium => 2
  | .urgent => 3

/-! ## Invariants and fixtures -/

/-- Spec section 3 task invariant, forward direction: `completed_date` is
set whenever `status == completed`. -/
def completedDateInv (t : Task) : Prop :=
  t.status = TaskStatus.completed → t.completed_date.isSome = true

instance (t : Task) : Decidable (completedDateInv t) := by
  unfold completedDateInv; infer_instance

/-- A recurring monthly maintenance item. -/
def sampleItem : MaintenanceItem :=
  { category := "HVAC", priority := "medium", status := "pending",
    is_recurring := true, is_active := true, frequency_months := some 1,
    next_due_date := some ⟨2024, 3, 15⟩, last_completed_date := some ⟨2024, 2, 10⟩,
    estimated_cost := none, actual_cost := none }

/-- A recurring item with a zero `frequency_months` and no due date yet. -/
def itemZeroFreq : MaintenanceItem :=
  { category := "Plumbing", priority := "medium", status := "pending",
    is_recurring := true, is_active := true, frequency_months := some 0,
    next_due_date := none, last_completed_date := some ⟨2024, 3, 10⟩,
    estimated_cost := none, actual_cost := none }

/-- A non-recurring maintenance item. -/
def itemNonRec : MaintenanceItem :=
  { category := "Roof", priority := "high", status := "pending",
    is_recurring := false, is_active := true, frequency_months := none,
    next_due_date := some ⟨2024, 6, 1⟩, last_completed_date := none,
    estimated_cost := none, actual_cost := none }

/-- A recurring item with no `frequency_months` at all. -/
def itemNoFreq : MaintenanceItem :=
  { category := "Garden", priority := "low", status := "pending",
    is_recurring := true, is_active := true, frequency_months := none,
    next_due_date := some ⟨2024, 6, 1⟩, last_completed_date := none,
    estimated_cost := none, actual_cost := none }

/-- An item due exactly seven days after 2024-03-10. -/
def itemDueIn7 : MaintenanceItem :=
  { category := "HVAC", priority := "medium", status := "pending",
    is_recurring := true, is_active := true, frequency_months := some 1,
    next_due_date := some ⟨2024, 3, 17⟩, last_completed_date := none,
    estimated_cost := none, actual_cost := none }

/-- An item last completed in March of an earlier year. -/
def itemCrossYear : MaintenanceItem :=
  { category := "HVAC", priority := "medium", status := "pending",
    is_recurring := true, is_active := true, frequency_months := some 12,
    next_due_date := none, last_completed_date := some ⟨2023, 3, 15⟩,
    estimated_cost := none, actual_cost := none }

/-- A fresh pending task with no dates. -/
def task0 : Task :=
  { priority := .medium, status := .pending, due_date := none,
    start_date := none, completed_date := none, is_active := true }

/-- A pending task due 2024-03-09 (one day before the sample "today"). -/
def taskDueYesterday : Task :=
  { priority := .medium, status := .pending, due_date := some ⟨2024, 3, 9⟩,
    start_date := none, completed_date := none, is_active := true }

/-- An urgent task due 2024-03-13 (three days after the sample "today"). -/
def taskUrgent3 : Task :=
  { priority := .urgent, status := .pending, due_date := some ⟨2024, 3, 13⟩,
    start_date := none, completed_date := none, is_active := true }

/-- A low-priority task due 2024-03-13. -/
def taskLow3 : Task :=
  { priority := .low, status := .pending, due_date := some ⟨2024, 3, 13⟩,
    start_date := none, completed_date := none, is_active := true }

/-- A high-priority task due 2024-03-13. -/
def taskHigh3 : Task :=
  { priority := .high, status := .pending, due_date := some ⟨2024, 3, 13⟩,
    start_date := none, completed_date := none, is_active := true }

/-- A medium-priority task due 2024-03-13. -/
def taskMed3 : Task :=
  { priority := .medium, status := .pending, due_date := some ⟨2024, 3, 13⟩,
    start_date := none, completed_date := none, is_active := true }

/-- A medium-priority task due a day earlier, 2024-03-12. -/
def taskMed2 : Task :=
  { priority := .medium, status := .pending, due_date := some ⟨2024, 3, 12⟩,
    start_date := none, completed_date := none, is_active := true }

/-- A medium-priority task with no due date. -/
def taskMedNone : Task :=
  { priority := .medium, status := .pending, due_date := none,
    start_date := none, completed_date := none, is_active := true }

/-! ## Helper lemmas -/

lemma storedName_lt_iff (p q : TaskPriority) :
    strLtB p.storedName q.storedName = true ↔ nameRank p < nameRank q := by
  cases p <;> cases q <;> decide

lemma storedName_inj (p q : TaskPriority) :
    p.storedName = q.storedName ↔ p = q := by
  cases p <;> cases q <;> decide

lemma addMonths_zero (d : Date) (h : ValidDate d) : addMonths d 0 = d := by
  obtain ⟨hm1, hm2, hd1, hd2⟩ := h
  obtain ⟨y, m, dd⟩ := d
  dsimp only at hm1 hm2 hd1 hd2
  have hy : (12 * y + (m : Int) - 1 + 0) / 12 = y := by omega
  have hm : (((12 * y + (m : Int) - 1 + 0) % 12).toNat + 1) = m := by omega
  simp only [addMonths, hy, hm]
  rw [Date.mk.injEq]
  exact ⟨rfl, rfl, Nat.min_eq_left hd2⟩

lemma addMonths_neg_lt (d : Date) (k : Int) (hk : k < 0) (h : ValidDate d) :
    dateLtB (addMonths d k) d = true := by
  apply dateLtB_of_monthIndex_lt
  · exact ⟨(addMonths_month_bounds d k).1, (addMonths_month_bounds d k).2⟩
  · exact ⟨h.1, h.2.1⟩
  · rw [monthIndex_addMonths]
    omega

lemma lookup_bump (m : List (String × Nat)) (x v : String) :
    (bump m x).lookup v =
      if v = x then some ((m.lookup x).getD 0 + 1) else m.lookup v := by
  induction m with
  | nil =>
    by_cases h : v = x
    · subst h
      simp [bump, List.lookup]
    · have hb : (v == x) = false := beq_eq_false_iff_ne.mpr h
      simp [bump, List.lookup, h, hb]
  | cons kv rest ih =>
    obtain ⟨k, n⟩ := kv
    by_cases hkx : k = x
    · subst hkx
      by_cases hvk : v = k
      · subst hvk
        simp [bump, List.lookup]
      · have hb : (v == k) = false := beq_eq_false_iff_ne.mpr hvk
        simp [bump, List.lookup, hvk, hb]
    · have hxk : (x == k) = false := beq_eq_false_iff_ne.mpr (fun hh => hkx hh.symm)
      by_cases hvk : v = k
      · subst hvk
        simp [bump, List.lookup, hkx]
      · have hb : (v == k) = false := beq_eq_false_iff_ne.mpr hvk
        simp [bump, List.lookup, hkx, hb, hxk, ih]

lemma lookup_foldl_bump (l : List String) (m : List (String × Nat)) (v : String) :
    (l.foldl bump m).lookup v =
      match m.lookup v with
      | some n => some (n + l.count v)
      | none => if l.count v = 0 then none else some (l.count v) := by
  induction l generalizing m with
  | nil => cases h : m.lookup v <;> simp [h]
  | cons x xs ih =>
    rw [List.foldl_cons, ih (bump m x), lookup_bump]
    by_cases hvx : v = x
    · subst hvx
      cases h : m.lookup v <;>
        simp [h, List.count_cons] <;> omega
    · have hbx : (x == v) = false := beq_eq_false_iff_ne.mpr (fun hh => hvx hh.symm)
      simp only [if_neg hvx, List.count_cons, hbx, if_false]
      cases h : m.lookup v <;> simp [h]

/-! ## Classification characterizations -/

lemma classify_eq_overdue_iff (it : MaintenanceItem) (today : Date) :
    classify it today = MaintClass.overdue ↔
      ∃ d, it.next_due_date = some d ∧ dateLtB d today = true := by
  cases hdd : it.next_due_date with
  | none => simp [classify, hdd]
  | some d =>
    simp only [classify, MaintenanceItem.is_overdue, MaintenanceItem.days_until_due, hdd]
    split_ifs with h1 h2 <;> simp_all

lemma classify_eq_due_soon_iff (it : MaintenanceItem) (today : Date) :
    classify it today = MaintClass.due_soon ↔
      (it.is_overdue today = false ∧ 0 ≤ it.days_until_due today
        ∧ it.days_until_due today ≤ 7) := by
  cases hdd : it.next_due_date with
  | none => simp [classify, MaintenanceItem.is_overdue, MaintenanceItem.days_until_due, hdd]
  | some d =>
    simp only [classify, MaintenanceItem.is_overdue, MaintenanceItem.days_until_due, hdd]
    split_ifs with h1 h2 <;> simp_all

lemma classify_eq_no_schedule_iff (it : MaintenanceItem) (today : Date) :
    classify it today = MaintClass.no_schedule ↔ it.next_due_date = none := by
  cases hdd : it.next_due_date with
  | none => simp [classify, hdd]
  | some d =>
    simp only [classify, MaintenanceItem.is_overdue, MaintenanceItem.days_until_due, hdd]
    split_ifs with h1 h2 <;> simp_all

lemma classify_eq_upcoming_iff (it : MaintenanceItem) (today : Date) :
    classify it today = MaintClass.upcoming ↔
      (it.next_due_date ≠ none ∧ it.is_overdue today = false
        ∧ ¬(0 ≤ it.days_until_due today ∧ it.days_until_due today ≤ 7)) := by
  cases hdd : it.next_due_date with
  | none => simp [classify, MaintenanceItem.is_overdue, MaintenanceItem.days_until_due, hdd]
  | some d =>
    simp only [classify, MaintenanceItem.is_overdue, MaintenanceItem.days_until_due, hdd]
    split_ifs with h1 h2 <;> simp_all

/-! ## Claim theorems -/

/-- C1: `mark_completed` sets `last_completed_date` to the supplied
completion date (today otherwise) and `actual_cost` when supplied; a
recurring item with a frequency gets
`next_due_date = last_completed_date + frequency_months` months and status
`"pending"`; a non-recurring item gets status `"completed"` with
`next_due_date` untouched; completing a recurring monthly item on
2024-03-10 yields next due 2024-04-10 and status `"pending"`. -/
theorem C1_mark_completed_spec (it : MaintenanceItem) (cd : Option Date)
    (cost : Option Rat) (today : Date) :
    (it.mark_completed cd cost today).last_completed_date = some (cd.getD today)
    ∧ (∀ c, cost = some c → (it.mark_completed cd cost today).actual_cost = some c)
    ∧ (cost = none → (it.mark_completed cd cost today).actual_cost = it.actual_cost)
    ∧ (it.is_recurring = true → ∀ k, it.frequency_months = some k →
        (it.mark_completed cd cost today).next_due_date
            = some (addMonths (cd.getD today) k)
        ∧ (it.mark_completed cd cost today).status = "pending")
    ∧ (it.is_recurring = false →
        (it.mark_completed cd cost today).status = "completed"
        ∧ (it.mark_completed cd cost today).next_due_date = it.next_due_date)
    ∧ (it.is_recurring = true → it.frequency_months = some 1 →
        cd = some ⟨2024, 3, 10⟩ →
        (it.mark_completed cd cost today).next_due_date = some ⟨2024, 4, 10⟩
        ∧ (it.mark_completed cd cost today).status = "pending") := by
  cases hrec : it.is_recurring <;> cases hfm : it.frequency_months <;> cases hc : cost <;>
    simp [MaintenanceItem.mark_completed, MaintenanceItem.calculate_next_due_date,
      hrec, hfm] <;>
    (try intro hone) <;>
    simp_all <;>
    (try intro hcd) <;>
    decide

/-- C1 witness: completing the sample recurring monthly item with
completion date 2024-03-10 yields due date 2024-04-10 and pending status. -/
theorem C1_mark_completed_witness :
    (sampleItem.mark_completed (some ⟨2024, 3, 10⟩) none ⟨2024, 3, 12⟩).next_due_date
        = some ⟨2024, 4, 10⟩
    ∧ (sampleItem.mark_completed (some ⟨2024, 3, 10⟩) none ⟨2024, 3, 12⟩).status
        = "pending" :=
  (C1_mark_completed_spec sampleItem (some ⟨2024, 3, 10⟩) none
    ⟨2024, 3, 12⟩).2.2.2.2.2 rfl rfl rfl

/-- C2: advancing a date by a positive number of months moves the linear
month index by exactly that amount, keeps the day when the target month is
long enough and clamps it otherwise, and lands on a month in 1..12;
2024-01-31 plus one month is 2024-02-29 and 2023-01-31 plus one month is
2023-02-28. -/
theorem C2_addMonths_spec (d : Date) (k : Int) (hk : 1 ≤ k) :
    monthIndex (addMonths d k) = monthIndex d + k
    ∧ (addMonths d k).day =
        (if d.day ≤ daysInMonth (addMonths d k).year (addMonths d k).month then d.day
         else daysInMonth (addMonths d k).year (addMonths d k).month)
    ∧ 1 ≤ (addMonths d k).month ∧ (addMonths d k).month ≤ 12
    ∧ addMonths ⟨2024, 1, 31⟩ 1 = ⟨2024, 2, 29⟩
    ∧ addMonths ⟨2023, 1, 31⟩ 1 = ⟨2023, 2, 28⟩ :=
  ⟨monthIndex_addMonths d k, addMonths_day_eq d k,
    (addMonths_month_bounds d k).1, (addMonths_month_bounds d k).2,
    by decide, by decide⟩

/-- C2 witness: instantiated at 2024-01-31 advanced by one month. -/
theorem C2_addMonths_witness :
    monthIndex (addMonths ⟨2024, 1, 31⟩ 1) = monthIndex ⟨2024, 1, 31⟩ + 1
    ∧ addMonths ⟨2024, 1, 31⟩ 1 = ⟨2024, 2, 29⟩ :=
  ⟨(C2_addMonths_spec ⟨2024, 1, 31⟩ 1 (by norm_num)).1,
    (C2_addMonths_spec ⟨2024, 1, 31⟩ 1 (by norm_num)).2.2.2.2.1⟩

/-- C10: completing a recurring item that has no `frequency_months` still
records the completion date and resets status to `"pending"`, but leaves
`next_due_date` unchanged because the recurrence calculator returns without
computing anything. -/
theorem C10_recurring_without_frequency (it : MaintenanceItem) (cd : Option Date)
    (cost : Option Rat) (today : Date)
    (hrec : it.is_recurring = true) (hfm : it.frequency_months = none) :
    (it.mark_completed cd cost today).last_completed_date = some (cd.getD today)
    ∧ (it.mark_completed cd cost today).status = "pending"
    ∧ (it.mark_completed cd cost today).next_due_date = it.next_due_date := by
  cases hc : cost <;>
    simp [MaintenanceItem.mark_completed, MaintenanceItem.calculate_next_due_date,
      hrec, hfm]

/-- C10 witness: the recurring no-frequency fixture keeps its old due date
and cycles back to pending. -/
theorem C10_recurring_without_frequency_witness :
    (itemNoFreq.mark_completed (some ⟨2024, 3, 10⟩) none ⟨2024, 3, 12⟩).last_completed_date
        = some ⟨2024, 3, 10⟩
    ∧ (itemNoFreq.mark_completed (some ⟨2024, 3, 10⟩) none ⟨2024, 3, 12⟩).status = "pending"
    ∧ (itemNoFreq.mark_completed (some ⟨2024, 3, 10⟩) none ⟨2024, 3, 12⟩).next_due_date
        = itemNoFreq.next_due_date :=
  C10_recurring_without_frequency itemNoFreq (some ⟨2024, 3, 10⟩) none ⟨2024, 3, 12⟩
    rfl rfl

/-- C4: a task is overdue exactly when it has a due date, its status is
neither completed nor cancelled, and today is past the due date; a pending
task due yesterday is overdue, and after `mark_completed` the same task is
no longer overdue although its due date is unchanged. -/
theorem C4_task_overdue_spec (t : Task) (today now : Date) :
    (t.is_overdue today = true ↔
      (∃ d, t.due_date = some d ∧ t.status ≠ TaskStatus.completed
        ∧ t.status ≠ TaskStatus.cancelled ∧ dateLtB d today = true))
    ∧ (t.mark_completed now).is_overdue today = false
    ∧ (t.mark_completed now).due_date = t.due_date
    ∧ taskDueYesterday.is_overdue ⟨2024, 3, 10⟩ = true
    ∧ (taskDueYesterday.mark_completed now).is_overdue ⟨2024, 3, 10⟩ = false
    ∧ (taskDueYesterday.mark_completed now).due_date = taskDueYesterday.due_date := by
  refine ⟨?_, ?_, rfl, by decide, ?_, rfl⟩
  · cases hdd : t.due_date <;> simp [Task.is_overdue, hdd] <;> tauto
  · cases hdd : t.due_date <;> simp [Task.is_overdue, Task.mark_completed, hdd]
  · simp [Task.is_overdue, Task.mark_completed, taskDueYesterday]

/-- C3: the four-way classification is exhaustive with strict priority:
overdue iff a due date exists and today is past it; due-soon iff not
overdue and the day difference is between 0 and 7 inclusive; no-schedule
iff no due date exists (in which case `days_until_due` returns the 999999
sentinel); upcoming otherwise; a due date equal to today or today+7 days
classifies as due-soon and today+8 days as upcoming. -/
theorem C3_classify_spec (it : MaintenanceItem) (today : Date) :
    (classify it today = MaintClass.overdue ↔
      ∃ d, it.next_due_date = some d ∧ dateLtB d today = true)
    ∧ (classify it today = MaintClass.due_soon ↔
      (it.is_overdue today = false ∧ 0 ≤ it.days_until_due today
        ∧ it.days_until_due today ≤ 7))
    ∧ (classify it today = MaintClass.no_schedule ↔ it.next_due_date = none)
    ∧ (it.next_due_date = none → it.days_until_due today = 999999)
    ∧ (classify it today = MaintClass.upcoming ↔
      (it.next_due_date ≠ none ∧ it.is_overdue today = false
        ∧ ¬(0 ≤ it.days_until_due today ∧ it.days_until_due today ≤ 7)))
    ∧ (it.next_due_date = some today → classify it today = MaintClass.due_soon)
    ∧ (∀ d, it.next_due_date = some d → ValidDate d → ValidDate today →
        toRD d = toRD today + 7 → classify it today = MaintClass.due_soon)
    ∧ (∀ d, it.next_due_date = some d → ValidDate d → ValidDate today →
        toRD d = toRD today + 8 → classify it today = MaintClass.upcoming) := by
  refine ⟨classify_eq_overdue_iff it today, classify_eq_due_soon_iff it today,
    classify_eq_no_schedule_iff it today, ?_, classify_eq_upcoming_iff it today,
    ?_, ?_, ?_⟩
  · intro h
    simp [MaintenanceItem.days_until_due, h]
  · intro he
    refine (classify_eq_due_soon_iff it today).mpr ⟨?_, ?_, ?_⟩
    · simp [MaintenanceItem.is_overdue, he, dateLtB_irrefl]
    · simp [MaintenanceItem.days_until_due, he, daysBetween]
    · simp [MaintenanceItem.days_until_due, he, daysBetween]
  · intro d hd hv hvt heq
    have hflt : dateLtB d today = false :=
      dateLtB_eq_false_of_toRD_lt today d hvt hv (by omega)
    refine (classify_eq_due_soon_iff it today).mpr
      ⟨by simp [MaintenanceItem.is_overdue, hd, hflt], ?_, ?_⟩ <;>
      simp [MaintenanceItem.days_until_due, hd, daysBetween] <;> omega
  · intro d hd hv hvt heq
    have hflt : dateLtB d today = false :=
      dateLtB_eq_false_of_toRD_lt today d hvt hv (by omega)
    refine (classify_eq_upcoming_iff it today).mpr
      ⟨by simp [hd], by simp [MaintenanceItem.is_overdue, hd, hflt], ?_⟩
    simp [MaintenanceItem.days_until_due, hd, daysBetween]
    omega

/-- C3 witness: on 2024-03-10 an item due 2024-03-17 (exactly seven days
out) classifies as due-soon. -/
theorem C3_classify_witness : classify itemDueIn7 ⟨2024, 3, 10⟩ = MaintClass.due_soon :=
  (C3_classify_spec itemDueIn7 ⟨2024, 3, 10⟩).2.2.2.2.2.2.1 ⟨2024, 3, 17⟩ rfl
    (by decide) (by decide) (by decide)

/-- C5 counterexample: high and medium priority tasks with the same due
date. The claimed primary ordering says the high task sorts first
(`semRank high > semRank medium`), but the query's `priority.desc()`
compares the persisted enum-name strings, and "MEDIUM" > "HIGH"
lexicographically, so the medium task sorts strictly before the high one. -/
theorem C5_priority_order_counterexample :
    semRank TaskPriority.high > semRank TaskPriority.medium
    ∧ taskHigh3.due_date = taskMed3.due_date
    ∧ taskSortBefore taskHigh3 taskMed3 = false
    ∧ taskSortBefore taskMed3 taskHigh3 = true := by
  decide

/-- C5 (amended): the list ordering is primary by priority descending in
the lexicographic order of the persisted priority names — which places
urgent first but high last (URGENT > MEDIUM > LOW > HIGH), not the
semantic urgent > high > medium > low — and secondary by due date
ascending with absent due dates last. The claim's concrete examples still
hold: an urgent task sorts before a low task with the same due date, of
two equal-priority tasks the earlier-due one sorts first, and a
same-priority task with no due date sorts after one with a due date. -/
theorem C5_task_order_spec (t u : Task) :
    (taskSortBefore t u = true ↔
      (nameRank u.priority < nameRank t.priority
        ∨ (t.priority = u.priority ∧ dueKeyLtB t.due_date u.due_date = true)))
    ∧ (t.priority = u.priority →
        (taskSortBefore t u = true ↔ dueKeyLtB t.due_date u.due_date = true))
    ∧ taskSortBefore taskUrgent3 taskLow3 = true
    ∧ taskSortBefore taskLow3 taskUrgent3 = false
    ∧ taskSortBefore taskMed2 taskMed3 = true
    ∧ taskSortBefore taskMed3 taskMed2 = false
    ∧ taskSortBefore taskMed3 taskMedNone = true
    ∧ taskSortBefore taskMedNone taskMed3 = false := by
  have hmain : taskSortBefore t u = true ↔
      (nameRank u.priority < nameRank t.priority
        ∨ (t.priority = u.priority ∧ dueKeyLtB t.due_date u.due_date = true)) := by
    by_cases hpq : t.priority.storedName = u.priority.storedName
    · have hp : t.priority = u.priority := (storedName_inj _ _).mp hpq
      rw [hp]
      simp [taskSortBefore, hpq, hp]
    · have hne : t.priority ≠ u.priority := fun h => hpq (by rw [h])
      simp [taskSortBefore, hpq, hne, storedName_lt_iff]
  refine ⟨hmain, ?_, by decide, by decide, by decide, by decide, by decide, by decide⟩
  intro hp
  rw [hmain, hp]
  simp

/-- C5 witness: two equal-priority tasks due three days apart — the
earlier-due one sorts first, via the amended characterization. -/
theorem C5_task_order_witness :
    taskSortBefore taskMed2 taskMed3 = true :=
  ((C5_task_order_spec taskMed2 taskMed3).2.1 rfl).mpr (by decide)

/-- C6 counterexample: completing a fresh pending task and then starting
progress leaves `completed_date` set while the status is `in_progress`,
because `mark_in_progress` never clears `completed_date` — the claimed
if-and-only-if invariant fails for this command sequence. -/
theorem C6_invariant_counterexample :
    (runCmds task0 [TaskCmd.complete ⟨2024, 3, 10⟩,
        TaskCmd.startProgress ⟨2024, 3, 11⟩]).status = TaskStatus.in_progress
    ∧ (runCmds task0 [TaskCmd.complete ⟨2024, 3, 10⟩,
        TaskCmd.startProgress ⟨2024, 3, 11⟩]).completed_date = some ⟨2024, 3, 10⟩ := by
  decide

/-- C6 (amended): only the forward direction of the invariant is
maintained by the engine's own commands: `completed_date` is set whenever
status is completed, and every command sequence preserves this; the
reverse direction fails because `start_progress` after `complete` leaves
`completed_date` set while status is `in_progress`. -/
theorem C6_completed_inv_preserved (t : Task) (cs : List TaskCmd)
    (h : completedDateInv t) : completedDateInv (runCmds t cs) := by
  induction cs generalizing t with
  | nil => exact h
  | cons c cs ih =>
    have hstep : completedDateInv (applyCmd t c) := by
      cases c with
      | complete now =>
        intro _
        simp [applyCmd, Task.mark_completed]
      | startProgress today =>
        intro hst
        simp [applyCmd, Task.mark_in_progress] at hst
    exact ih (applyCmd t c) hstep

/-- C6 witness: the preserved forward invariant applied to a concrete
command sequence on the fresh pending task. -/
theorem C6_completed_inv_witness :
    completedDateInv (runCmds task0
      [TaskCmd.complete ⟨2024, 3, 10⟩, TaskCmd.startProgress ⟨2024, 3, 11⟩]) :=
  C6_completed_inv_preserved task0
    [TaskCmd.complete ⟨2024, 3, 10⟩, TaskCmd.startProgress ⟨2024, 3, 11⟩] (by decide)

/-- C7 counterexample: a recurring item with `frequency_months = 0` is not
rejected: `calculate_next_due_date` mutates `next_due_date` (previously
absent) to a date equal to the anchor, contradicting the claim that zero
frequency is defensively rejected with no computed date. -/
theorem C7_zero_frequency_counterexample :
    itemZeroFreq.next_due_date = none
    ∧ (itemZeroFreq.calculate_next_due_date ⟨2024, 5, 1⟩).next_due_date
        = some ⟨2024, 3, 10⟩
    ∧ (itemZeroFreq.calculate_next_due_date ⟨2024, 5, 1⟩).next_due_date
        = itemZeroFreq.last_completed_date := by
  decide

/-- C7 (amended): the recurrence calculation on a non-recurring item or
one without a frequency returns with no field mutation; but zero and
negative `frequency_months` are not rejected: a zero frequency sets
`next_due_date` equal to the anchor and a negative frequency sets it to a
date strictly earlier than the anchor. -/
theorem C7_frequency_guard_spec (it : MaintenanceItem) (today : Date) :
    ((it.is_recurring = false ∨ it.frequency_months = none) →
      it.calculate_next_due_date today = it)
    ∧ (it.is_recurring = true → it.frequency_months = some 0 →
        ∀ a, it.last_completed_date = some a → ValidDate a →
          (it.calculate_next_due_date today).next_due_date = some a)
    ∧ (∀ k, it.is_recurring = true → it.frequency_months = some k → k < 0 →
        ∀ a, it.last_completed_date = some a → ValidDate a →
          ∃ b, (it.calculate_next_due_date today).next_due_date = some b
            ∧ dateLtB b a = true) := by
  refine ⟨?_, ?_, ?_⟩
  · intro h
    cases hrec : it.is_recurring
    · simp [MaintenanceItem.calculate_next_due_date, hrec]
    · cases hfm : it.frequency_months
      · simp [MaintenanceItem.calculate_next_due_date, hrec, hfm]
      · rcases h with h | h
        · rw [hrec] at h
          exact absurd h (by simp)
        · rw [hfm] at h
          exact absurd h (by simp)
  · intro hrec h0 a ha hva
    simp [MaintenanceItem.calculate_next_due_date, hrec, h0, ha, addMonths_zero a hva]
  · intro k hrec hk hkneg a ha hva
    refine ⟨addMonths a k, ?_, addMonths_neg_lt a k hkneg hva⟩
    simp [MaintenanceItem.calculate_next_due_date, hrec, hk, ha]

/-- C7 witness: the guard leaves the non-recurring fixture untouched, and
the zero-frequency fixture receives its anchor as the new due date. -/
theorem C7_frequency_guard_witness :
    itemNonRec.calculate_next_due_date ⟨2024, 5, 1⟩ = itemNonRec
    ∧ (itemZeroFreq.calculate_next_due_date ⟨2024, 5, 1⟩).next_due_date
        = some ⟨2024, 3, 10⟩ :=
  ⟨(C7_frequency_guard_spec itemNonRec ⟨2024, 5, 1⟩).1 (Or.inl rfl),
    (C7_frequency_guard_spec itemZeroFreq ⟨2024, 5, 1⟩).2.1 rfl rfl
      ⟨2024, 3, 10⟩ rfl (by decide)⟩

/-- C8: the completed-this-period count is the number of items whose
`last_completed_date` is present with month-of-year equal to today's
month; the test ignores the year entirely, so an item completed in March
2023 is counted when today is in March 2024. -/
theorem C8_completed_this_period_spec (items : List MaintenanceItem) (today : Date) :
    completedThisMonth items today
        = items.countP (fun it => completedThisMonthB it today)
    ∧ (∀ it, completedThisMonthB it today = true ↔
        ∃ d, it.last_completed_date = some d ∧ d.month = today.month)
    ∧ (∀ (it : MaintenanceItem) (d : Date) (y2 : Int), completedThisMonthB
          { it with last_completed_date := some { d with year := y2 } } today
        = completedThisMonthB { it with last_completed_date := some d } today)
    ∧ completedThisMonth [itemCrossYear] ⟨2024, 3, 10⟩ = 1 := by
  refine ⟨?_, ?_, ?_, by decide⟩
  · simp [completedThisMonth, List.countP_eq_length_filter]
  · intro it
    cases h : it.last_completed_date <;> simp [completedThisMonthB, h]
  · intro it d y2
    simp [completedThisMonthB]

/-- C9: the dashboard's count-by aggregation over a non-empty collection
maps every field value to its occurrence count (and omits values that do
not occur); over an empty collection it is exactly the single-key
placeholder mapping, never an empty mapping. It is a total function, so
it cannot raise. -/
theorem C9_aggregate_spec (f : MaintenanceItem → String)
    (items : List MaintenanceItem) :
    (items = [] → countBy f items = [("No Data", 1)])
    ∧ (items ≠ [] → ∀ v, (countBy f items).lookup v =
        (if (items.map f).count v = 0 then none
         else some ((items.map f).count v))) := by
  constructor
  · intro h
    subst h
    rfl
  · intro h v
    have hne : items.isEmpty = false := by
      cases items
      · exact absurd rfl h
      · rfl
    unfold countBy
    rw [if_neg (by simp [hne])]
    rw [← List.foldl_map, lookup_foldl_bump]
    simp

/-- C9 witness: the placeholder for the empty collection and a concrete
count for a one-item collection. -/
theorem C9_aggregate_witness :
    countBy (fun it => it.category) ([] : List MaintenanceItem) = [("No Data", 1)]
    ∧ (countBy (fun it => it.category) [sampleItem]).lookup "HVAC" = some 1 := by
  refine ⟨(C9_aggregate_spec (fun it => it.category) []).1 rfl, ?_⟩
  have h := (C9_aggregate_spec (fun it => it.category) [sampleItem]).2 (by simp) "HVAC"
  simpa [sampleItem] using h

end HomeManager
